import Mathlib

/-!
Formal model of the omopcloudetl_core workflow compilation pipeline
(compilation/compiler.py and sql_tools.py) together with proofs of its
specified properties.  Repository code is translated directly; the external
collaborators the compiler calls (the Jinja2 template engine, sqlparse,
json.dumps, the networkx acyclicity check, the specification resolver and the
dialect generators) are modelled explicitly where the compiled behaviour
depends on them.
-/

namespace OmopCloudEtl

/-- Nested string/dictionary values: the shape of the rendering context
(in the source, a Python dict such as the one built by `_build_context`)
and of step option maps. -/
inductive JValue where
  | str (s : String)
  | dict (fields : List (String × JValue))

/-- First-match association-list lookup; models Python `dict.get` (dict keys
are unique, so the first match is the match). -/
def lookup {α : Type} (k : String) : List (String × α) → Option α
  | [] => none
  | (k', v) :: rest => if k' = k then some v else lookup k rest

/-- The rendering context: a Python dict from names to values. -/
abbrev Context := List (String × JValue)

/-- Error taxonomy of omopcloudetl_core.exceptions restricted to the exception
types the compiler itself raises: WorkflowError, CompilationError,
DMLValidationError. -/
inductive CoreError where
  | workflowError (msg : String)
  | compilationError (msg : String)
  | dmlValidationError (msg : String)
deriving DecidableEq

/-- Decidable equality for fallible results, used to evaluate the embedded
functions at concrete inputs. -/
instance {ε α : Type} [DecidableEq ε] [DecidableEq α] : DecidableEq (Except ε α)
  | .ok a, .ok b =>
    if h : a = b then .isTrue (by rw [h]) else .isFalse (by simp [h])
  | .error a, .error b =>
    if h : a = b then .isTrue (by rw [h]) else .isFalse (by simp [h])
  | .ok _, .error _ => .isFalse (by simp)
  | .error _, .ok _ => .isFalse (by simp)

/-- Modelled from the spec: a Jinja2 template as parsed by the external
jinja2.Environment, reduced to the constructs the repository's templates use —
literal text and dotted-path variable interpolation. -/
inductive TNode where
  | lit (s : String)
  | var (path : List String)
deriving DecidableEq

/-- A template is a sequence of nodes. -/
abbrev Template := List TNode

/-- Modelled from the spec: strict-undefined resolution of the tail of a dotted
variable path inside a value; a key missing at any depth yields `none`
(Jinja2 StrictUndefined raises there instead of substituting text). -/
def resolveInValue : JValue → List String → Option JValue
  | v, [] => some v
  | .dict m, k :: rest =>
    match lookup k m with
    | some v => resolveInValue v rest
    | none => none
  | .str _, _ :: _ => none

/-- Modelled from the spec: resolution of a dotted variable path against the
top-level context. -/
def resolvePath (ctx : Context) : List String → Option JValue
  | [] => none
  | k :: rest =>
    match lookup k ctx with
    | some v => resolveInValue v rest
    | none => none

mutual

/-- Modelled from the spec: Python `str` applied to a resolved template value.
The compiler's contexts bind template paths to strings; dictionary values are
printed in a Python-repr style. -/
def jvalueStr : JValue → String
  | .str s => s
  | .dict fields => "\x7b" ++ jfieldsStr fields ++ "\x7d"

/-- Python-repr style rendering of dictionary items. -/
def jfieldsStr : List (String × JValue) → String
  | [] => ""
  | [(k, v)] => "\x27" ++ k ++ "\x27: " ++ jvalueStr v
  | (k, v) :: rest => "\x27" ++ k ++ "\x27: " ++ jvalueStr v ++ ", " ++ jfieldsStr rest

end

/-- Modelled from the spec: rendering of template nodes left to right; the
first strictly-undefined variable reference aborts with a Jinja-style
message. -/
def renderNodes (ctx : Context) : List TNode → Except String String
  | [] => .ok ""
  | .lit s :: rest =>
    match renderNodes ctx rest with
    | .ok tail => .ok (s ++ tail)
    | .error e => .error e
  | .var p :: rest =>
    match resolvePath ctx p with
    | none => .error ("\x27" ++ String.intercalate "." p ++ "\x27 is undefined")
    | some v =>
      match renderNodes ctx rest with
      | .ok tail => .ok (jvalueStr v ++ tail)
      | .error e => .error e

/-- Embedding of `sql_tools.render_jinja_template`: render with strict
undefined semantics, wrapping the Jinja UndefinedError as CompilationError. -/
def render_jinja_template (template_str : Template) (context : Context) : Except CoreError String :=
  match renderNodes context template_str with
  | .ok s => .ok s
  | .error e => .error (.compilationError ("Jinja rendering failed: " ++ e))

/-- Hexadecimal digit character (lowercase, as emitted by Python json). -/
def hexDigit (n : Nat) : Char :=
  if n < 10 then Char.ofNat (48 + n) else Char.ofNat (87 + n)

/-- Four-digit zero-padded lowercase hexadecimal, as in a JSON unicode escape. -/
def hex4 (n : Nat) : String :=
  String.mk [hexDigit (n / 4096 % 16), hexDigit (n / 256 % 16),
             hexDigit (n / 16 % 16), hexDigit (n % 16)]

/-- Modelled from the spec: Python `json.dumps` escaping of one character with
default options (ensure_ascii true): named escapes for the JSON control
shorthands, unicode escapes (with surrogate pairs beyond the BMP) for other
control or non-ASCII characters, the character itself otherwise. -/
def jsonEscapeChar (c : Char) : String :=
  if c = '"' then "\\\""
  else if c = '\\' then "\\\\"
  else if c = '\n' then "\\n"
  else if c = '\t' then "\\t"
  else if c = '\r' then "\\r"
  else if c = '\x08' then "\\b"
  else if c = '\x0c' then "\\f"
  else if c.val < 32 || 126 < c.val then
    if c.val ≤ 65535 then "\\u" ++ hex4 c.toNat
    else
      "\\u" ++ hex4 (55296 + (c.toNat - 65536) / 1024) ++
      "\\u" ++ hex4 (56320 + (c.toNat - 65536) % 1024)
  else String.singleton c

/-- Modelled from the spec: Python json string serialization. -/
def jsonQuote (s : String) : String :=
  "\"" ++ String.join (s.data.map jsonEscapeChar) ++ "\""

/-- Modelled from the spec: Python `json.dumps` on a string-to-string dict with
default options — items in the dict's insertion order (sort_keys is not set in
the source), default separators. -/
def jsonDumps (context : List (String × String)) : String :=
  "\x7b" ++ String.intercalate ", "
    (context.map (fun p => jsonQuote p.1 ++ ": " ++ jsonQuote p.2)) ++ "\x7d"

/-- Embedding of `sql_tools.apply_query_tag`: prepend the JSON-formatted
comment block and a newline to the SQL statement. -/
def apply_query_tag (sql : String) (context : List (String × String)) : String :=
  "/* OmopCloudEtlContext: " ++ jsonDumps context ++ " */" ++ "\n" ++ sql

/-- Whitespace characters removed by Python `str.strip()` (ASCII subset; the
source never feeds it other whitespace). -/
def isPySpace (c : Char) : Bool :=
  c = ' ' || c = '\t' || c = '\n' || c = '\r' || c = '\x0b' || c = '\x0c'

/-- Modelled from Python `str.strip()`: drop leading and trailing whitespace
from a character list. -/
def stripChars (cs : List Char) : List Char :=
  ((cs.dropWhile isPySpace).reverse.dropWhile isPySpace).reverse

/-- Python `str.strip()` on strings. -/
def pyStrip (s : String) : String :=
  String.mk (stripChars s.data)

/-- Lexer states of the modelled sqlparse tokenizer: outside any literal, or
inside a single-quoted, double-quoted or backtick-quoted literal. -/
inductive QState where
  | normal
  | singleQ
  | doubleQ
  | backtick
deriving DecidableEq

/-- Quote state entered after reading character `c` in the normal state. -/
def enterQuote (c : Char) : QState :=
  if c = '\x27' then .singleQ
  else if c = '"' then .doubleQ
  else if c = '`' then .backtick
  else .normal

/-- Lexer states of the modelled sqlparse comment stripper: the quote states
plus the two comment kinds being skipped. -/
inductive CState where
  | normal
  | singleQ
  | doubleQ
  | backtick
  | lineComment
  | blockComment
deriving DecidableEq

/-- Comment-stripper state entered after reading character `c` in the normal
state. -/
def enterQuoteC (c : Char) : CState :=
  if c = '\x27' then .singleQ
  else if c = '"' then .doubleQ
  else if c = '`' then .backtick
  else .normal

/-- Modelled from the spec: `sqlparse.format(script, strip_comments=True)` —
remove `--` line comments (keeping their terminating newline) and block
comments, leaving quoted literals (single, double or backtick quotes)
intact. -/
def stripCommentsAux : CState → List Char → List Char
  | .normal, '-' :: '-' :: cs => stripCommentsAux .lineComment cs
  | .normal, '/' :: '*' :: cs => stripCommentsAux .blockComment cs
  | .normal, c :: cs => c :: stripCommentsAux (enterQuoteC c) cs
  | .singleQ, c :: cs =>
    c :: stripCommentsAux (if c = '\x27' then .normal else .singleQ) cs
  | .doubleQ, c :: cs =>
    c :: stripCommentsAux (if c = '"' then .normal else .doubleQ) cs
  | .backtick, c :: cs =>
    c :: stripCommentsAux (if c = '`' then .normal else .backtick) cs
  | .lineComment, '\n' :: cs => '\n' :: stripCommentsAux .normal cs
  | .lineComment, _ :: cs => stripCommentsAux .lineComment cs
  | .blockComment, '*' :: '/' :: cs => stripCommentsAux .normal cs
  | .blockComment, _ :: cs => stripCommentsAux .blockComment cs
  | _, [] => []

/-- Comment stripping on a whole script. -/
def stripComments (s : String) : String :=
  String.mk (stripCommentsAux .normal s.data)

/-- Modelled from the spec: `sqlparse.split` — cut the script at
statement-terminating semicolons that are outside quoted literals, each
statement keeping its terminating semicolon; a trailing fragment without a
terminator is kept as-is, and an empty trailing fragment is not emitted. -/
def splitStmtsAux (st : QState) (acc : List Char) : List Char → List (List Char)
  | [] => if acc.isEmpty then [] else [acc.reverse]
  | c :: cs =>
    match st with
    | .normal =>
      if c = ';' then (acc.reverse ++ [';']) :: splitStmtsAux .normal [] cs
      else splitStmtsAux (enterQuote c) (c :: acc) cs
    | .singleQ => splitStmtsAux (if c = '\x27' then .normal else .singleQ) (c :: acc) cs
    | .doubleQ => splitStmtsAux (if c = '"' then .normal else .doubleQ) (c :: acc) cs
    | .backtick => splitStmtsAux (if c = '`' then .normal else .backtick) (c :: acc) cs

/-- Statement splitting on a whole script. -/
def splitStmts (s : String) : List String :=
  (splitStmtsAux .normal [] s.data).map String.mk

/-- Per-statement cleanup loop of `sql_tools.split_sql_script`: strip, remove
one trailing semicolon if present, strip again. -/
def cleanStatement (stmt : String) : String :=
  let stripped := stripChars stmt.data
  let stripped :=
    match stripped.getLast? with
    | some c => if c = ';' then stripped.dropLast else stripped
    | none => stripped
  String.mk (stripChars stripped)

/-- Embedding of `sql_tools.split_sql_script`: strip comments, split into
statements, clean each statement and keep the non-empty ones. -/
def split_sql_script (sql_script : String) : List String :=
  let formatted_script := stripComments sql_script
  let statements := splitStmts formatted_script
  (statements.map cleanStatement).filter (fun s => s ≠ "")

/-- Embedding of the workflow step variants of `models/workflow.py`
(the discriminated union over the `type` field).  File contents reached
through `dml_file` / `sql_file` and the `source_uri_pattern` are Jinja
templates, represented here already parsed (the Jinja parser is external
library code). -/
inductive WorkflowStep where
  | dml (name : String) (depends_on : List String) (dml_file : String)
  | bulkLoad (name : String) (depends_on : List String) (source_uri_pattern : Template)
      (target_table : String) (target_schema_ref : String) (options : List (String × JValue))
  | ddl (name : String) (depends_on : List String) (cdm_version : String)
      (target_schema_ref : String) (options : List (String × JValue))
  | sql (name : String) (depends_on : List String) (sql_file : String)

/-- Field `name` shared by all step variants. -/
def WorkflowStep.name : WorkflowStep → String
  | .dml n _ _ => n
  | .bulkLoad n _ _ _ _ _ => n
  | .ddl n _ _ _ _ => n
  | .sql n _ _ => n

/-- Field `depends_on` shared by all step variants. -/
def WorkflowStep.depends_on : WorkflowStep → List String
  | .dml _ d _ => d
  | .bulkLoad _ d _ _ _ _ => d
  | .ddl _ d _ _ _ => d
  | .sql _ d _ => d

/-- Embedding of `WorkflowConfig` from `models/workflow.py`. -/
structure WorkflowConfig where
  workflow_name : String
  concurrency : Nat := 1
  steps : List WorkflowStep

/-- Embedding of the compiled step variants of `models/workflow.py`. -/
inductive CompiledStep where
  | sql (name : String) (depends_on : List String) (sql_statements : List String)
  | bulkLoad (name : String) (depends_on : List String) (source_uri : String)
      (target_schema : String) (target_table : String)
      (source_format_options : JValue) (load_options : JValue)

/-- Embedding of `CompiledWorkflowPlan` from `models/workflow.py`; the
execution identifier is the string form of the generated UUID. -/
structure CompiledWorkflowPlan where
  execution_id : String
  workflow_name : String
  concurrency : Nat
  steps : List CompiledStep
  context_snapshot : Context

/-- Names of all steps, as the set comprehension in `_validate_dag` collects
them. -/
def stepNames (steps : List WorkflowStep) : List String :=
  steps.map WorkflowStep.name

/-- First dependency reference not naming any step, scanned in the order of
the loops of `_validate_dag`: returns the offending step name and the missing
dependency name. -/
def findUndefinedDep (names : List String) : List WorkflowStep → Option (String × String)
  | [] => none
  | s :: rest =>
    match s.depends_on.find? (fun d => d ∉ names) with
    | some d => some (s.name, d)
    | none => findUndefinedDep names rest

/-- Edges `dep → step` of the dependency graph, as added by `_validate_dag`. -/
def dagEdges (steps : List WorkflowStep) : List (String × String) :=
  steps.flatMap (fun s => s.depends_on.map (fun d => (d, s.name)))

/-- Bounded reachability in one or more edge steps: `reachB edges n a b` holds
when some walk of length between 1 and `n` leads from `a` to `b`. -/
def reachB (edges : List (String × String)) : Nat → String → String → Bool
  | 0, _, _ => false
  | n + 1, a, b =>
    edges.any (fun e => e.1 = a && (e.2 = b || reachB edges n e.2 b))

/-- Modelled from the spec: `networkx.is_directed_acyclic_graph` — the graph
is acyclic exactly when no node reaches itself by a non-empty walk; walks
need never repeat an edge, so fuel `edges.length` is enough. -/
def is_directed_acyclic_graph (nodes : List String) (edges : List (String × String)) : Bool :=
  nodes.all (fun v => ! reachB edges edges.length v v)

/-- Embedding of `WorkflowCompiler._validate_dag`: reject the first undefined
dependency, then reject a cyclic dependency graph. -/
def validate_dag (steps : List WorkflowStep) : Except CoreError Unit :=
  match findUndefinedDep (stepNames steps) steps with
  | some (sn, d) =>
    .error (.workflowError
      ("Step \x27" ++ sn ++ "\x27 has an undefined dependency: \x27" ++ d ++ "\x27"))
  | none =>
    if is_directed_acyclic_graph (stepNames steps) (dagEdges steps) then
      .ok ()
    else
      .error (.workflowError "Workflow contains a circular dependency (cycle) in its steps.")

/-- Embedding of `WorkflowCompiler._build_context`: the rendering context holds
exactly the schema mapping of the project configuration. -/
def build_context (schemas : List (String × String)) : Context :=
  [("schemas", JValue.dict (schemas.map (fun p => (p.1, JValue.str p.2))))]

/-- Opaque view of a fetched CDM specification (`specifications/models.py`):
the compiler passes it unchanged to the DDL generator. -/
structure CDMSpecification where
  version : String

/-- Opaque view of a parsed DML definition (`models/dml.py`): the compiler
passes it unchanged to the SQL generator. -/
structure DMLDefinition where
  target_table : String

/-- External collaborators of the compiler, modelled as pure functions: the
file system reads behind `open`, the YAML-parse-and-validate pair behind the
DML branch, the pluggable SQL/DDL generators and the specification manager. -/
structure Collaborators where
  fs : String → Option Template
  parseDML : String → Except String DMLDefinition
  generate_transform_sql : DMLDefinition → Context → String
  fetch_specification : String → CDMSpecification
  generate_ddl : CDMSpecification → String → List (String × JValue) → List String

/-- Observable collaborator calls made while compiling a step, recorded in
program order. -/
inductive CompileEvent where
  | fetchSpec (version : String)
deriving DecidableEq

/-- Path join `workflow_base_path / file` of the source. -/
def pathJoin (base file : String) : String := base ++ "/" ++ file

/-- Query-tag context built per step in `WorkflowCompiler.compile`, in the
insertion order of the source dict literal. -/
def queryTagContext (execution_id step_name workflow_name : String) : List (String × String) :=
  [("omopcloudetl_tool", "WorkflowCompiler"),
   ("execution_id", execution_id),
   ("step_name", step_name),
   ("workflow_name", workflow_name)]

/-- Lookup `context["schemas"].get(ref)` of the DDL and bulk-load branches. -/
def resolveSchemaRef (ctx : Context) (ref : String) : Option String :=
  match lookup "schemas" ctx with
  | some (.dict m) =>
    match lookup ref m with
    | some (.str s) => some s
    | _ => none
  | _ => none

/-- Message of the CompilationError raised when a schema reference does not
resolve. -/
def schemaRefErrorMsg (ref : String) : String :=
  "Schema reference \x27" ++ ref ++ "\x27 not found in project config."

/-- Message of the DMLValidationError raised by the DML branch. -/
def dmlErrorMsg (path : String) : String :=
  "Failed to load, render, or validate DML file " ++ path

/-- Embedding of the per-step body of `WorkflowCompiler.compile`: one branch
per step variant, returning the collaborator calls made and either the
compiled step or the error raised.  In the DML branch the `except` clause of
the source catches IOError, pydantic ValidationError and yaml.YAMLError but
not the CompilationError coming out of `render_jinja_template`, so a render
failure propagates unwrapped. -/
def compileStep (C : Collaborators) (ctx : Context) (execution_id workflow_name base_path : String) :
    WorkflowStep → List CompileEvent × Except CoreError CompiledStep
  | .dml nm deps file =>
    let p := pathJoin base_path file
    match C.fs p with
    | none => ([], .error (.dmlValidationError (dmlErrorMsg p)))
    | some raw =>
      match render_jinja_template raw ctx with
      | .error e => ([], .error e)
      | .ok rendered =>
        match C.parseDML rendered with
        | .error _ => ([], .error (.dmlValidationError (dmlErrorMsg p)))
        | .ok dml_def =>
          let sqlText := C.generate_transform_sql dml_def ctx
          ([], .ok (.sql nm deps
            [apply_query_tag sqlText (queryTagContext execution_id nm workflow_name)]))
  | .ddl nm deps ver ref opts =>
    let spec := C.fetch_specification ver
    match resolveSchemaRef ctx ref with
    | none => ([.fetchSpec ver], .error (.compilationError (schemaRefErrorMsg ref)))
    | some schema_name =>
      if schema_name = "" then
        ([.fetchSpec ver], .error (.compilationError (schemaRefErrorMsg ref)))
      else
        ([.fetchSpec ver], .ok (.sql nm deps
          ((C.generate_ddl spec schema_name opts).map
            (fun s => apply_query_tag s (queryTagContext execution_id nm workflow_name)))))
  | .sql nm deps file =>
    let p := pathJoin base_path file
    match C.fs p with
    | none => ([], .error (.compilationError ("Failed to read SQL file " ++ p)))
    | some raw =>
      match render_jinja_template raw ctx with
      | .error e => ([], .error e)
      | .ok rendered =>
        ([], .ok (.sql nm deps
          ((split_sql_script rendered).map
            (fun s => apply_query_tag s (queryTagContext execution_id nm workflow_name)))))
  | .bulkLoad nm deps patt table ref opts =>
    match resolveSchemaRef ctx ref with
    | none => ([], .error (.compilationError (schemaRefErrorMsg ref)))
    | some schema_name =>
      if schema_name = "" then
        ([], .error (.compilationError (schemaRefErrorMsg ref)))
      else
        match render_jinja_template patt ctx with
        | .error e => ([], .error e)
        | .ok resolved_uri =>
          ([], .ok (.bulkLoad nm deps resolved_uri schema_name table
            ((lookup "source_format_options" opts).getD (.dict []))
            ((lookup "load_options" opts).getD (.dict []))))

/-- Step loop of `WorkflowCompiler.compile`: compile each step in declaration
order, short-circuiting on the first error, concatenating the collaborator
calls made up to that point. -/
def compileSteps (C : Collaborators) (ctx : Context) (execution_id workflow_name base_path : String) :
    List WorkflowStep → List CompileEvent × Except CoreError (List CompiledStep)
  | [] => ([], .ok [])
  | s :: rest =>
    match compileStep C ctx execution_id workflow_name base_path s with
    | (evs, .error e) => (evs, .error e)
    | (evs, .ok cs) =>
      match compileSteps C ctx execution_id workflow_name base_path rest with
      | (evs2, .error e) => (evs ++ evs2, .error e)
      | (evs2, .ok rest') => (evs ++ evs2, .ok (cs :: rest'))

/-- Embedding of `WorkflowCompiler.compile`: generate the execution id (passed
in, since `uuid4()` is environment randomness), build the context, validate
the DAG, compile every step, assemble the plan. -/
def compile (C : Collaborators) (schemas : List (String × String)) (execution_id : String)
    (workflow_config : WorkflowConfig) (workflow_base_path : String) :
    List CompileEvent × Except CoreError CompiledWorkflowPlan :=
  let ctx := build_context schemas
  match validate_dag workflow_config.steps with
  | .error e => ([], .error e)
  | .ok _ =>
    match compileSteps C ctx execution_id workflow_config.workflow_name workflow_base_path
        workflow_config.steps with
    | (evs, .error e) => (evs, .error e)
    | (evs, .ok compiled) =>
      (evs, .ok
        { execution_id := execution_id
          workflow_name := workflow_config.workflow_name
          concurrency := workflow_config.concurrency
          steps := compiled
          context_snapshot := ctx })

/-! Supporting lemmas about the query tag. -/

theorem no_newline_mem (s : String) (hs : s.data.all (fun c => ! (c = '\n')) = true)
    {d : Char} (h : d ∈ s.data) : d ≠ '\n' := by
  intro hd
  rw [List.all_eq_true] at hs
  have := hs _ h
  simp [hd] at this

theorem hexDigit_ne_newline : ∀ n < 16, ¬ hexDigit n = '\n' := by decide

theorem mem_hex4_ne_newline (n : Nat) (c : Char) (h : c ∈ (hex4 n).data) : c ≠ '\n' := by
  have h16 : ∀ m : Nat, m % 16 < 16 := fun m => Nat.mod_lt _ (by norm_num)
  simp only [hex4, List.mem_cons, List.not_mem_nil, or_false] at h
  rcases h with h | h | h | h
  all_goals (rw [h] ; exact hexDigit_ne_newline _ (h16 _))

theorem mem_jsonEscapeChar_ne_newline (c d : Char) (h : d ∈ (jsonEscapeChar c).data) :
    d ≠ '\n' := by
  unfold jsonEscapeChar at h
  split_ifs at h with h1 h2 h3 h4 h5 h6 h7 h8 h9
  · exact no_newline_mem "\\\"" (by decide) h
  · exact no_newline_mem "\\\\" (by decide) h
  · exact no_newline_mem "\\n" (by decide) h
  · exact no_newline_mem "\\t" (by decide) h
  · exact no_newline_mem "\\r" (by decide) h
  · exact no_newline_mem "\\b" (by decide) h
  · exact no_newline_mem "\\f" (by decide) h
  · rw [String.data_append] at h
    rcases List.mem_append.mp h with h | h
    · exact no_newline_mem "\\u" (by decide) h
    · exact mem_hex4_ne_newline _ _ h
  · rw [String.data_append, String.data_append, String.data_append] at h
    rcases List.mem_append.mp h with h | h
    rcases List.mem_append.mp h with h | h
    rcases List.mem_append.mp h with h | h
    · exact no_newline_mem "\\u" (by decide) h
    · exact mem_hex4_ne_newline _ _ h
    · exact no_newline_mem "\\u" (by decide) h
    · exact mem_hex4_ne_newline _ _ h
  · have hdata : (String.singleton c).data = [c] := rfl
    rw [hdata] at h
    simp only [List.mem_singleton] at h
    rw [h]
    exact h3

theorem mem_jsonQuote_ne_newline (s : String) (d : Char) (h : d ∈ (jsonQuote s).data) :
    d ≠ '\n' := by
  unfold jsonQuote at h
  rw [String.data_append, String.data_append] at h
  rcases List.mem_append.mp h with h | h
  rcases List.mem_append.mp h with h | h
  · exact no_newline_mem "\"" (by decide) h
  · rw [String.data_join] at h
    rcases List.mem_flatten.mp h with ⟨l, hl, hd⟩
    rcases List.mem_map.mp hl with ⟨t, ht, rfl⟩
    rcases List.mem_map.mp ht with ⟨c, _, rfl⟩
    exact mem_jsonEscapeChar_ne_newline c d hd
  · exact no_newline_mem "\"" (by decide) h

theorem mem_intercalate_go_data (c : Char) (s : String) (l : List String) :
    ∀ acc : String, c ∈ (String.intercalate.go acc s l).data →
      c ∈ acc.data ∨ c ∈ s.data ∨ ∃ x ∈ l, c ∈ x.data := by
  induction l with
  | nil =>
    intro acc h
    exact Or.inl h
  | cons a as ih =>
    intro acc h
    have h' := ih (acc ++ s ++ a) h
    rcases h' with h' | h' | h'
    · rw [String.data_append, String.data_append] at h'
      rcases List.mem_append.mp h' with h' | h'
      rcases List.mem_append.mp h' with h' | h'
      · exact Or.inl h'
      · exact Or.inr (Or.inl h')
      · exact Or.inr (Or.inr ⟨a, by simp, h'⟩)
    · exact Or.inr (Or.inl h')
    · rcases h' with ⟨x, hx, hc⟩
      exact Or.inr (Or.inr ⟨x, by simp [hx], hc⟩)

theorem mem_intercalate_data (c : Char) (s : String) (l : List String)
    (h : c ∈ (String.intercalate s l).data) :
    c ∈ s.data ∨ ∃ x ∈ l, c ∈ x.data := by
  unfold String.intercalate at h
  match l, h with
  | [], h => cases h
  | a :: as, h =>
    have h' := mem_intercalate_go_data c s as a h
    rcases h' with h' | h' | h'
    · exact Or.inr ⟨a, by simp, h'⟩
    · exact Or.inl h'
    · rcases h' with ⟨x, hx, hc⟩
      exact Or.inr ⟨x, by simp [hx], hc⟩

theorem mem_jsonDumps_ne_newline (context : List (String × String)) (d : Char)
    (h : d ∈ (jsonDumps context).data) : d ≠ '\n' := by
  unfold jsonDumps at h
  rw [String.data_append, String.data_append] at h
  rcases List.mem_append.mp h with h | h
  rcases List.mem_append.mp h with h | h
  · exact no_newline_mem "\x7b" (by decide) h
  · rcases mem_intercalate_data _ _ _ h with h | ⟨x, hx, hd⟩
    · exact no_newline_mem ", " (by decide) h
    · rcases List.mem_map.mp hx with ⟨p, _, rfl⟩
      rw [String.data_append, String.data_append] at hd
      rcases List.mem_append.mp hd with hd | hd
      rcases List.mem_append.mp hd with hd | hd
      · exact mem_jsonQuote_ne_newline _ _ hd
      · exact no_newline_mem ": " (by decide) hd
      · exact mem_jsonQuote_ne_newline _ _ hd
  · exact no_newline_mem "\x7d" (by decide) h

/-- The full comment line prepended by `apply_query_tag`. -/
def queryTagLine (context : List (String × String)) : String :=
  "/* OmopCloudEtlContext: " ++ jsonDumps context ++ " */"

theorem mem_queryTagLine_ne_newline (context : List (String × String)) (d : Char)
    (h : d ∈ (queryTagLine context).data) : d ≠ '\n' := by
  unfold queryTagLine at h
  rw [String.data_append, String.data_append] at h
  rcases List.mem_append.mp h with h | h
  rcases List.mem_append.mp h with h | h
  · exact no_newline_mem "/* OmopCloudEtlContext: " (by decide) h
  · exact mem_jsonDumps_ne_newline _ _ h
  · exact no_newline_mem " */" (by decide) h

/-! Supporting lemmas about schema-reference resolution. -/

theorem lookup_map_str (schemas : List (String × String)) (ref : String) :
    lookup ref (schemas.map (fun p => (p.1, JValue.str p.2)))
      = (lookup ref schemas).map JValue.str := by
  induction schemas with
  | nil => rfl
  | cons p rest ih =>
    by_cases h : p.1 = ref <;> simp [lookup, h, ih]

theorem resolveSchemaRef_build_context (schemas : List (String × String)) (ref : String) :
    resolveSchemaRef (build_context schemas) ref = lookup ref schemas := by
  cases h : lookup ref schemas <;>
    simp [resolveSchemaRef, build_context, lookup, lookup_map_str, h]

/-- Concrete collaborator instances used to evaluate the compiler at concrete
inputs. -/
def demoCollaborators : Collaborators where
  fs := fun _ => none
  parseDML := fun _ => .error "invalid"
  generate_transform_sql := fun _ _ => "SELECT 1"
  fetch_specification := fun v => ⟨v⟩
  generate_ddl := fun _ _ _ => ["CREATE TABLE t (id INT)"]

/-- C4 counterexample: the query-tag JSON payload is not serialized in sorted
key order — two contexts holding the same key/value pairs inserted in
different orders produce different tags. -/
theorem C4_counterexample :
    apply_query_tag "SELECT 1" [("b", "2"), ("a", "1")] ≠
      apply_query_tag "SELECT 1" [("a", "1"), ("b", "2")] := by decide

/-- C4 (amended): `apply_query_tag` produces the tag line followed by exactly
one newline and the original SQL byte-for-byte; the tag line never contains a
newline (every character of the context is JSON-escaped), and its JSON payload
serializes the context's keys in insertion order, not sorted order. -/
theorem C4_query_tag_format (sql : String) (context : List (String × String)) :
    apply_query_tag sql context = queryTagLine context ++ "\n" ++ sql ∧
    ∀ d ∈ (queryTagLine context).data, d ≠ '\n' :=
  ⟨rfl, fun d hd => mem_queryTagLine_ne_newline context d hd⟩

theorem C4_query_tag_format_witness :
    apply_query_tag "SELECT 1;" [("workflow", "my_etl"), ("step", "step1")]
        = queryTagLine [("workflow", "my_etl"), ("step", "step1")] ++ "\n" ++ "SELECT 1;" ∧
    'O' ≠ '\n' :=
  ⟨(C4_query_tag_format "SELECT 1;" [("workflow", "my_etl"), ("step", "step1")]).1,
   (C4_query_tag_format "SELECT 1;" [("workflow", "my_etl"), ("step", "step1")]).2
     'O' (by decide)⟩

/-- C10: in both the ddl and bulk_load branches a schema reference mapped to
the empty string is rejected exactly like an absent one, with the same
"Schema reference not found" CompilationError, because the source tests the
resolved value's truthiness; the same holds for a whole single-step
compilation. -/
theorem C10_empty_schema_ref (C : Collaborators) (schemas : List (String × String))
    (eid wf bp nm ver ref table : String) (deps : List String)
    (opts : List (String × JValue)) (patt : Template) (conc : Nat)
    (h : lookup ref schemas = some "") :
    (compileStep C (build_context schemas) eid wf bp (.ddl nm deps ver ref opts)).2
        = .error (.compilationError (schemaRefErrorMsg ref)) ∧
    (compileStep C (build_context schemas) eid wf bp (.bulkLoad nm deps patt table ref opts)).2
        = .error (.compilationError (schemaRefErrorMsg ref)) ∧
    (compile C schemas eid ⟨wf, conc, [.ddl nm [] ver ref opts]⟩ bp).2
        = .error (.compilationError (schemaRefErrorMsg ref)) ∧
    (compile C schemas eid ⟨wf, conc, [.bulkLoad nm [] patt table ref opts]⟩ bp).2
        = .error (.compilationError (schemaRefErrorMsg ref)) := by
  have hres := resolveSchemaRef_build_context schemas ref
  rw [h] at hres
  refine ⟨?_, ?_, ?_, ?_⟩ <;>
    simp [compile, validate_dag, findUndefinedDep, stepNames, dagEdges,
      is_directed_acyclic_graph, reachB, compileSteps, compileStep,
      WorkflowStep.name, WorkflowStep.depends_on, hres]

theorem C10_empty_schema_ref_witness :
    (compileStep demoCollaborators (build_context [("source", "")]) "E1" "wf" "."
        (.ddl "s1" [] "5.4" "source" [])).2
      = .error (.compilationError (schemaRefErrorMsg "source")) ∧
    (compileStep demoCollaborators (build_context [("source", "")]) "E1" "wf" "."
        (.bulkLoad "s1" [] [] "person" "source" [])).2
      = .error (.compilationError (schemaRefErrorMsg "source")) ∧
    (compile demoCollaborators [("source", "")] "E1"
        ⟨"wf", 1, [.ddl "s1" [] "5.4" "source" []]⟩ ".").2
      = .error (.compilationError (schemaRefErrorMsg "source")) ∧
    (compile demoCollaborators [("source", "")] "E1"
        ⟨"wf", 1, [.bulkLoad "s1" [] [] "person" "source" []]⟩ ".").2
      = .error (.compilationError (schemaRefErrorMsg "source")) :=
  C10_empty_schema_ref demoCollaborators [("source", "")] "E1" "wf" "." "s1" "5.4"
    "source" "person" [] [] [] 1 (by rfl)

/-- C3 counterexample: a ddl step whose schema reference is absent does fail
with the reference error, but the specification fetch IS invoked — the
recorded collaborator trace contains the fetch, refuting the claim that the
fetch is never invoked and that resolution precedes it. -/
theorem C3_counterexample :
    (compile demoCollaborators [("source", "raw")] "E1"
        ⟨"wf", 1, [.ddl "s1" [] "5.4" "unknown" []]⟩ ".")
      = ([.fetchSpec "5.4"],
         .error (.compilationError (schemaRefErrorMsg "unknown"))) := by rfl

/-- C3 (amended): for a ddl step whose schema reference does not resolve,
compilation fails with the "schema reference not found" error, but the
Specification Resolver fetch for the step's catalog version is invoked before
the schema check (the source fetches first, then resolves). -/
theorem C3_ddl_fetch_before_check (C : Collaborators) (schemas : List (String × String))
    (eid wf bp nm ver ref : String) (deps : List String)
    (opts : List (String × JValue)) (conc : Nat)
    (h : lookup ref schemas = none) :
    compileStep C (build_context schemas) eid wf bp (.ddl nm deps ver ref opts)
        = ([.fetchSpec ver], .error (.compilationError (schemaRefErrorMsg ref))) ∧
    compile C schemas eid ⟨wf, conc, [.ddl nm [] ver ref opts]⟩ bp
        = ([.fetchSpec ver], .error (.compilationError (schemaRefErrorMsg ref))) := by
  have hres := resolveSchemaRef_build_context schemas ref
  rw [h] at hres
  constructor <;>
    simp [compile, validate_dag, findUndefinedDep, stepNames, dagEdges,
      is_directed_acyclic_graph, reachB, compileSteps, compileStep,
      WorkflowStep.name, WorkflowStep.depends_on, hres]

theorem C3_ddl_fetch_before_check_witness :
    compileStep demoCollaborators (build_context [("source", "raw")]) "E1" "wf" "."
        (.ddl "s1" [] "5.4" "unknown" [])
      = ([.fetchSpec "5.4"], .error (.compilationError (schemaRefErrorMsg "unknown"))) ∧
    compile demoCollaborators [("source", "raw")] "E1"
        ⟨"wf", 1, [.ddl "s1" [] "5.4" "unknown" []]⟩ "."
      = ([.fetchSpec "5.4"], .error (.compilationError (schemaRefErrorMsg "unknown"))) :=
  C3_ddl_fetch_before_check demoCollaborators [("source", "raw")] "E1" "wf" "."
    "s1" "5.4" "unknown" [] [] 1 (by rfl)

/-- C2 counterexample: a step list containing two steps with the same name
passes DAG validation — duplicates are silently collapsed, not reported. -/
theorem C2_counterexample :
    validate_dag [.sql "a" [] "a.sql", .sql "a" [] "a2.sql"] = .ok () := by rfl

/-- C2 (amended): DAG validation does not treat duplicate step names as an
error: two steps sharing a name and declaring no dependencies validate
successfully, the duplicate names having been collapsed into a single graph
node. -/
theorem C2_duplicates_collapse (s t : WorkflowStep) (_hname : s.name = t.name)
    (hs : s.depends_on = []) (ht : t.depends_on = []) :
    validate_dag [s, t] = .ok () := by
  simp [validate_dag, findUndefinedDep, hs, ht, stepNames, dagEdges,
    is_directed_acyclic_graph, reachB]

theorem C2_duplicates_collapse_witness :
    validate_dag [.sql "b" [] "x.sql", .sql "b" [] "y.sql"] = .ok () :=
  C2_duplicates_collapse (.sql "b" [] "x.sql") (.sql "b" [] "y.sql") rfl rfl rfl

/-- C7 counterexample: compiling an empty workflow produces a plan whose
context snapshot is exactly the schemas binding; the execution identifier is
not in the rendering context, refuting the claim that the base context
contains it. -/
theorem C7_counterexample :
    (compile demoCollaborators [("source", "raw")] "E1" ⟨"wf", 1, []⟩ ".").2
        = .ok ⟨"E1", "wf", 1, [], build_context [("source", "raw")]⟩ ∧
    lookup "execution_id" (build_context [("source", "raw")]) = none :=
  ⟨rfl, rfl⟩

/-- C7 (amended): the base rendering context contains the resolved schema
mapping and nothing else — in particular not the execution identifier, which
appears only in the plan's execution_id field and each step's query-tag
context; the plan's context snapshot is exactly this context. -/
theorem C7_context_contents (schemas : List (String × String)) (k : String) :
    lookup "schemas" (build_context schemas)
        = some (.dict (schemas.map (fun p => (p.1, JValue.str p.2)))) ∧
    (k ≠ "schemas" → lookup k (build_context schemas) = none) ∧
    ∀ (C : Collaborators) (eid : String) (cfg : WorkflowConfig) (bp : String)
      (evs : List CompileEvent) (plan : CompiledWorkflowPlan),
      compile C schemas eid cfg bp = (evs, .ok plan) →
      plan.context_snapshot = build_context schemas := by
  refine ⟨by simp [build_context, lookup],
    fun hk => by simp [build_context, lookup, Ne.symm hk], ?_⟩
  intro C eid cfg bp evs plan hcompile
  unfold compile at hcompile
  cases h1 : validate_dag cfg.steps with
  | error e => rw [h1] at hcompile ; simp at hcompile
  | ok u =>
    rw [h1] at hcompile
    simp at hcompile
    cases h2 : compileSteps C (build_context schemas) eid cfg.workflow_name bp cfg.steps with
    | mk evs2 r =>
      cases r with
      | error e => rw [h2] at hcompile ; simp at hcompile
      | ok compiled =>
        rw [h2] at hcompile
        simp at hcompile
        rw [← hcompile.2]

theorem C7_context_contents_witness :
    lookup "schemas" (build_context [("source", "raw")])
        = some (.dict [("source", .str "raw")]) ∧
    lookup "execution_id" (build_context [("source", "raw")]) = none ∧
    (⟨"E1", "wf", 1, [], build_context [("source", "raw")]⟩
        : CompiledWorkflowPlan).context_snapshot = build_context [("source", "raw")] :=
  ⟨(C7_context_contents [("source", "raw")] "execution_id").1,
   (C7_context_contents [("source", "raw")] "execution_id").2.1 (by decide),
   (C7_context_contents [("source", "raw")] "execution_id").2.2 demoCollaborators "E1"
     ⟨"wf", 1, []⟩ "." [] _ (by rfl)⟩

/-! Supporting lemmas about successful compilations. -/

theorem compile_ok_inv (C : Collaborators) (schemas : List (String × String))
    (eid : String) (cfg : WorkflowConfig) (bp : String) (evs : List CompileEvent)
    (plan : CompiledWorkflowPlan)
    (h : compile C schemas eid cfg bp = (evs, .ok plan)) :
    compileSteps C (build_context schemas) eid cfg.workflow_name bp cfg.steps
      = (evs, .ok plan.steps) := by
  unfold compile at h
  cases h1 : validate_dag cfg.steps with
  | error e => rw [h1] at h ; simp at h
  | ok u =>
    rw [h1] at h
    simp at h
    cases h2 : compileSteps C (build_context schemas) eid cfg.workflow_name bp cfg.steps with
    | mk evs2 r =>
      cases r with
      | error e => rw [h2] at h ; simp at h
      | ok compiled =>
        rw [h2] at h
        simp at h
        rw [h.1, ← h.2]

theorem compileSteps_ok_nth (C : Collaborators) (ctx : Context) (eid wf bp : String) :
    ∀ (steps : List WorkflowStep) (evs : List CompileEvent) (out : List CompiledStep),
      compileSteps C ctx eid wf bp steps = (evs, .ok out) →
      ∀ (i : Nat) (s : WorkflowStep), steps.get? i = some s →
        ∃ cs, out.get? i = some cs ∧ (compileStep C ctx eid wf bp s).2 = .ok cs := by
  intro steps
  induction steps with
  | nil =>
    intro evs out h i s hs
    cases hs
  | cons s0 rest ih =>
    intro evs out h i s hs
    unfold compileSteps at h
    cases h1 : compileStep C ctx eid wf bp s0 with
    | mk evs1 r1 =>
      cases r1 with
      | error e => rw [h1] at h ; simp at h
      | ok cs0 =>
        rw [h1] at h
        simp at h
        cases h2 : compileSteps C ctx eid wf bp rest with
        | mk evs2 r2 =>
          cases r2 with
          | error e => rw [h2] at h ; simp at h
          | ok rest' =>
            rw [h2] at h
            simp at h
            cases i with
            | zero =>
              cases hs
              exact ⟨cs0, by rw [← h.2] ; rfl, by rw [h1]⟩
            | succ j =>
              have := ih evs2 rest' (by rw [h2]) j s hs
              rcases this with ⟨cs, hcs, hstep⟩
              exact ⟨cs, by rw [← h.2] ; simpa using hcs, hstep⟩

/-- C9: a bulk_load step with a resolving, non-empty schema reference and a
rendering source-URI pattern compiles to the CompiledBulkLoadStep carrying the
rendered URI, the resolved schema, the target table and the step's two option
maps unchanged, at the same position of the plan. -/
theorem C9_bulk_load_step (C : Collaborators) (schemas : List (String × String))
    (eid : String) (cfg : WorkflowConfig) (bp : String) (evs : List CompileEvent)
    (plan : CompiledWorkflowPlan) (i : Nat) (nm table ref : String)
    (deps : List String) (patt : Template) (opts : List (String × JValue))
    (sname uri : String)
    (hc : compile C schemas eid cfg bp = (evs, .ok plan))
    (hstep : cfg.steps.get? i = some (.bulkLoad nm deps patt table ref opts))
    (hres : lookup ref schemas = some sname) (hne : sname ≠ "")
    (hren : render_jinja_template patt (build_context schemas) = .ok uri) :
    plan.steps.get? i = some (.bulkLoad nm deps uri sname table
      ((lookup "source_format_options" opts).getD (.dict []))
      ((lookup "load_options" opts).getD (.dict []))) := by
  have hsteps := compile_ok_inv C schemas eid cfg bp evs plan hc
  obtain ⟨cs, hcs, hstep2⟩ :=
    compileSteps_ok_nth C (build_context schemas) eid cfg.workflow_name bp
      cfg.steps evs plan.steps hsteps i _ hstep
  have hres' := resolveSchemaRef_build_context schemas ref
  rw [hres] at hres'
  rw [show compileStep C (build_context schemas) eid cfg.workflow_name bp
        (.bulkLoad nm deps patt table ref opts)
      = ([], .ok (.bulkLoad nm deps uri sname table
          ((lookup "source_format_options" opts).getD (.dict []))
          ((lookup "load_options" opts).getD (.dict []))))
    from by simp [compileStep, hres', hne, hren]] at hstep2
  simp at hstep2
  rw [← hstep2] at hcs
  exact hcs

theorem C9_bulk_load_step_witness :
    (CompiledWorkflowPlan.mk "E1" "wf" 1
      [.bulkLoad "load" [] "s3://bucket/raw/" "raw" "person" (.dict []) (.dict [])]
      (build_context [("source", "raw")])).steps.get? 0
    = some (.bulkLoad "load" [] "s3://bucket/raw/" "raw" "person"
        ((lookup "source_format_options" ([] : List (String × JValue))).getD (.dict []))
        ((lookup "load_options" ([] : List (String × JValue))).getD (.dict []))) :=
  C9_bulk_load_step demoCollaborators [("source", "raw")] "E1"
    ⟨"wf", 1, [.bulkLoad "load" []
      [.lit "s3://bucket/", .var ["schemas", "source"], .lit "/"] "person" "source" []]⟩
    "." [] _ 0 "load" "person" "source" []
    [.lit "s3://bucket/", .var ["schemas", "source"], .lit "/"] [] "raw" "s3://bucket/raw/"
    (by rfl) (by rfl) (by rfl) (by decide) (by rfl)

/-- C6: rendering a template that references a variable whose dotted path does
not resolve in the context — missing at any depth — always fails with a
CompilationError; no reference is ever silently replaced by text. -/
theorem C6_strict_undefined (tmpl : Template) (ctx : Context)
    (h : ∃ p, TNode.var p ∈ tmpl ∧ resolvePath ctx p = none) :
    ∃ msg, render_jinja_template tmpl ctx = .error (.compilationError msg) := by
  suffices h' : ∃ e, renderNodes ctx tmpl = .error e by
    obtain ⟨e, he⟩ := h'
    exact ⟨"Jinja rendering failed: " ++ e, by simp [render_jinja_template, he]⟩
  obtain ⟨p, hmem, hres⟩ := h
  revert hmem
  induction tmpl with
  | nil => intro hmem ; cases hmem
  | cons n rest ih =>
    intro hmem
    cases n with
    | lit s =>
      have hrest : TNode.var p ∈ rest := by
        rcases List.mem_cons.mp hmem with heq | h'
        · cases heq
        · exact h'
      obtain ⟨e, he⟩ := ih hrest
      exact ⟨e, by simp [renderNodes, he]⟩
    | var q =>
      cases hq : resolvePath ctx q with
      | none =>
        exact ⟨"\x27" ++ String.intercalate "." q ++ "\x27 is undefined",
          by simp [renderNodes, hq]⟩
      | some v =>
        have hrest : TNode.var p ∈ rest := by
          rcases List.mem_cons.mp hmem with heq | h'
          · cases heq ; rw [hres] at hq ; cases hq
          · exact h'
        obtain ⟨e, he⟩ := ih hrest
        exact ⟨e, by simp [renderNodes, hq, he]⟩

theorem C6_strict_undefined_witness :
    ∃ msg, render_jinja_template [.var ["schemas", "missing"]]
        (build_context [("source", "raw")]) = .error (.compilationError msg) :=
  C6_strict_undefined [.var ["schemas", "missing"]] (build_context [("source", "raw")])
    ⟨["schemas", "missing"], List.Mem.head _, by rfl⟩

/-- Collaborator instances exercising the DML failure modes: one file whose
template references an undefined name, one file that renders but fails
YAML/schema validation, and no other files. -/
def dmlDemoCollaborators : Collaborators where
  fs := fun p =>
    if p = "./render_error.dml" then
      some [.lit "target_table: ", .var ["tables", "undefined"]]
    else if p = "./bad_yaml.dml" then
      some [.lit "key: value"]
    else none
  parseDML := fun _ => .error "ValidationError"
  generate_transform_sql := fun _ _ => "SELECT 1"
  fetch_specification := fun v => ⟨v⟩
  generate_ddl := fun _ _ _ => []

/-- C5: evaluation of the three DML failure modes.  File-not-found and
schema-validation failure produce the DMLValidationError naming the file, as
the claim states; but a template rendering error escapes as a bare
CompilationError that does not name the file, because the DML branch's except
clause catches IOError, ValidationError and YAMLError while the renderer
raises CompilationError.  The repository's own test
test_jinja_rendering_undefined_variable_dml expects DMLValidationError here. -/
theorem C5_dml_error_modes :
    (compile dmlDemoCollaborators [("source", "raw")] "E1"
        ⟨"wf", 1, [.dml "s1" [] "missing.dml"]⟩ ".").2
      = .error (.dmlValidationError (dmlErrorMsg "./missing.dml")) ∧
    (compile dmlDemoCollaborators [("source", "raw")] "E1"
        ⟨"wf", 1, [.dml "s1" [] "bad_yaml.dml"]⟩ ".").2
      = .error (.dmlValidationError (dmlErrorMsg "./bad_yaml.dml")) ∧
    (compile dmlDemoCollaborators [("source", "raw")] "E1"
        ⟨"wf", 1, [.dml "s1" [] "render_error.dml"]⟩ ".").2
      = .error (.compilationError
          "Jinja rendering failed: \x27tables.undefined\x27 is undefined") :=
  ⟨rfl, rfl, rfl⟩

/-! Walks and cycles in the dependency graph, connecting the bounded
reachability check embedded from networkx to the abstract notion of a cycle. -/

/-- A walk along graph edges: `isWalk edges a b w` holds when the edge list
`w` leads from `a` to `b`, consecutive edges matching end to start. -/
def isWalk (edges : List (String × String)) : String → String → List (String × String) → Prop
  | a, b, [] => a = b
  | a, b, e :: rest => e ∈ edges ∧ e.1 = a ∧ isWalk edges e.2 b rest

/-- A cycle: a non-empty walk from some vertex back to itself. -/
def HasCycle (edges : List (String × String)) : Prop :=
  ∃ v w, w ≠ [] ∧ isWalk edges v v w

theorem isWalk_append (edges : List (String × String)) :
    ∀ (w1 w2 : List (String × String)) (a b : String),
      isWalk edges a b (w1 ++ w2) ↔ ∃ m, isWalk edges a m w1 ∧ isWalk edges m b w2 := by
  intro w1
  induction w1 with
  | nil =>
    intro w2 a b
    constructor
    · intro h ; exact ⟨a, rfl, h⟩
    · intro ⟨m, hm, h⟩ ; cases hm ; exact h
  | cons e rest ih =>
    intro w2 a b
    constructor
    · intro ⟨he, ha, hrest⟩
      obtain ⟨m, h1, h2⟩ := (ih w2 e.2 b).mp hrest
      exact ⟨m, ⟨he, ha, h1⟩, h2⟩
    · intro ⟨m, ⟨he, ha, h1⟩, h2⟩
      exact ⟨he, ha, (ih w2 e.2 b).mpr ⟨m, h1, h2⟩⟩

theorem mem_edges_of_mem_walk (edges : List (String × String)) :
    ∀ (w : List (String × String)) (a b : String) (e : String × String),
      isWalk edges a b w → e ∈ w → e ∈ edges := by
  intro w
  induction w with
  | nil => intro a b e _ he ; cases he
  | cons e0 rest ih =>
    intro a b e hw he
    obtain ⟨he0, _, hrest⟩ := hw
    rcases List.mem_cons.mp he with rfl | hmem
    · exact he0
    · exact ih e0.2 b e hrest hmem

theorem reachB_of_walk (edges : List (String × String)) :
    ∀ (w : List (String × String)) (n : Nat) (a b : String),
      isWalk edges a b w → w ≠ [] → w.length ≤ n → reachB edges n a b = true := by
  intro w
  induction w with
  | nil => intro n a b _ hne ; exact absurd rfl hne
  | cons e rest ih =>
    intro n a b hw _ hlen
    obtain ⟨he, ha, hrest⟩ := hw
    cases n with
    | zero => simp at hlen
    | succ m =>
      unfold reachB
      rw [List.any_eq_true]
      refine ⟨e, he, ?_⟩
      cases rest with
      | nil =>
        cases hrest
        simp [ha]
      | cons e2 rest2 =>
        have : reachB edges m e.2 b = true :=
          ih m e.2 b hrest (by simp) (by simp at hlen ⊢ ; omega)
        simp [ha, this]

theorem walk_of_reachB (edges : List (String × String)) :
    ∀ (n : Nat) (a b : String), reachB edges n a b = true →
      ∃ w, w ≠ [] ∧ isWalk edges a b w := by
  intro n
  induction n with
  | zero => intro a b h ; simp [reachB] at h
  | succ m ih =>
    intro a b h
    unfold reachB at h
    rw [List.any_eq_true] at h
    obtain ⟨e, he, hcond⟩ := h
    rw [Bool.and_eq_true] at hcond
    obtain ⟨ha, hor⟩ := hcond
    rw [Bool.or_eq_true] at hor
    rcases hor with hb | hrec
    · refine ⟨[e], by simp, he, by simpa using ha, by simpa using hb⟩
    · obtain ⟨w, hne, hw⟩ := ih e.2 b hrec
      exact ⟨e :: w, by simp, he, by simpa using ha, hw⟩

theorem cycle_walk_short_aux (edges : List (String × String)) :
    ∀ (n : Nat) (w : List (String × String)) (v : String),
      w.length ≤ n → isWalk edges v v w → w ≠ [] →
      ∃ w', w' ≠ [] ∧ w'.length ≤ edges.length ∧ isWalk edges v v w' := by
  intro n
  induction n with
  | zero =>
    intro w v hlen _ hne
    cases w with
    | nil => exact absurd rfl hne
    | cons e rest => simp at hlen
  | succ m ih =>
    intro w v hlen hw hne
    by_cases hshort : w.length ≤ edges.length
    · exact ⟨w, hne, hshort, hw⟩
    · have hsubE : ∀ e ∈ w, e ∈ edges := fun e he =>
        mem_edges_of_mem_walk edges w v v e hw he
      have hnodup : ¬ w.Nodup := by
        intro hnd
        have hsub : w.toFinset ⊆ edges.toFinset := by
          intro e he
          rw [List.mem_toFinset] at he ⊢
          exact hsubE e he
        have h1 : w.toFinset.card = w.length := List.toFinset_card_of_nodup hnd
        have h2 : w.toFinset.card ≤ edges.toFinset.card := Finset.card_le_card hsub
        have h3 : edges.toFinset.card ≤ edges.length := List.toFinset_card_le edges
        omega
      obtain ⟨e, hdup⟩ := List.exists_duplicate_iff_not_nodup.mpr hnodup
      rw [List.duplicate_iff_sublist] at hdup
      obtain ⟨r1, r2, hw12, her1, hsub2⟩ := List.cons_sublist_iff.mp hdup
      have her2 : e ∈ r2 := List.singleton_sublist.mp hsub2
      obtain ⟨s, t, hr1⟩ := List.append_of_mem her1
      obtain ⟨s2, t2, hr2⟩ := List.append_of_mem her2
      subst hr1 hr2 hw12
      -- w = (s ++ e :: t) ++ (s2 ++ e :: t2); shortcut to s ++ e :: t2
      rw [show (s ++ e :: t) ++ (s2 ++ e :: t2) = s ++ e :: ((t ++ s2) ++ e :: t2) by
        simp] at hw hlen hne
      obtain ⟨m0, hs, hrest⟩ := (isWalk_append edges s (e :: ((t ++ s2) ++ e :: t2)) v v).mp hw
      obtain ⟨he, he1, htail⟩ := hrest
      obtain ⟨m1, _, hrest2⟩ := (isWalk_append edges (t ++ s2) (e :: t2) e.2 v).mp htail
      obtain ⟨he', he1', ht2⟩ := hrest2
      have hw' : isWalk edges v v (s ++ e :: t2) :=
        (isWalk_append edges s (e :: t2) v v).mpr ⟨m0, hs, he, he1, ht2⟩
      have hlen' : (s ++ e :: t2).length ≤ m := by
        simp at hlen ⊢
        omega
      exact ih (s ++ e :: t2) v hlen' hw' (by simp)

theorem cycle_walk_short (edges : List (String × String)) (v : String)
    (w : List (String × String)) (hw : isWalk edges v v w) (hne : w ≠ []) :
    ∃ w', w' ≠ [] ∧ w'.length ≤ edges.length ∧ isWalk edges v v w' :=
  cycle_walk_short_aux edges w.length w v le_rfl hw hne

theorem hasCycle_of_isDag_false (nodes : List String) (edges : List (String × String))
    (h : is_directed_acyclic_graph nodes edges = false) : HasCycle edges := by
  unfold is_directed_acyclic_graph at h
  rw [List.all_eq_false] at h
  obtain ⟨v, _, hv⟩ := h
  rw [Bool.not_eq_true', Bool.not_eq_false] at hv
  obtain ⟨w, hne, hw⟩ := walk_of_reachB edges edges.length v v hv
  exact ⟨v, w, hne, hw⟩

theorem isDag_false_of_hasCycle (nodes : List String) (edges : List (String × String))
    (hc : HasCycle edges) (hsrc : ∀ e ∈ edges, e.1 ∈ nodes) :
    is_directed_acyclic_graph nodes edges = false := by
  obtain ⟨v, w, hne, hw⟩ := hc
  obtain ⟨w', hne', hlen', hw'⟩ := cycle_walk_short edges v w hw hne
  have hreach : reachB edges edges.length v v = true :=
    reachB_of_walk edges w' edges.length v v hw' hne' hlen'
  have hv : v ∈ nodes := by
    cases w' with
    | nil => exact absurd rfl hne'
    | cons e rest =>
      obtain ⟨he, he1, _⟩ := hw'
      rw [← he1]
      exact hsrc e he
  unfold is_directed_acyclic_graph
  rw [List.all_eq_false]
  exact ⟨v, hv, by simp [hreach]⟩

/-- Cycle freedom can be established by the bounded reachability check over
the edge sources. -/
theorem no_cycle_of_check (edges : List (String × String))
    (h : edges.all (fun e => ! reachB edges edges.length e.1 e.1) = true) :
    ¬ HasCycle edges := by
  intro ⟨v, w, hne, hw⟩
  obtain ⟨w', hne', hlen', hw'⟩ := cycle_walk_short edges v w hw hne
  have hreach : reachB edges edges.length v v = true :=
    reachB_of_walk edges w' edges.length v v hw' hne' hlen'
  cases w' with
  | nil => exact absurd rfl hne'
  | cons e rest =>
    obtain ⟨he, he1, _⟩ := hw'
    rw [List.all_eq_true] at h
    have := h e he
    rw [he1, hreach] at this
    simp at this

theorem findUndefinedDep_eq_none_iff (names : List String) :
    ∀ steps : List WorkflowStep,
      findUndefinedDep names steps = none ↔
        ∀ s ∈ steps, ∀ d ∈ s.depends_on, d ∈ names := by
  intro steps
  induction steps with
  | nil => simp [findUndefinedDep]
  | cons s rest ih =>
    unfold findUndefinedDep
    cases hfind : s.depends_on.find? (fun d => d ∉ names) with
    | some d =>
      simp only [reduceCtorEq, false_iff]
      intro hall
      have hd := List.find?_some hfind
      have hmem := List.mem_of_find?_eq_some hfind
      simp at hd
      exact hd (hall s (by simp) d hmem)
    | none =>
      rw [List.find?_eq_none] at hfind
      simp only [ih]
      constructor
      · intro hall s' hs' d hd
        rcases List.mem_cons.mp hs' with rfl | hs'
        · have := hfind d hd
          simpa using this
        · exact hall s' hs' d hd
      · intro hall s' hs' d hd
        exact hall s' (by simp [hs']) d hd

theorem findUndefinedDep_eq_some (names : List String) :
    ∀ (steps : List WorkflowStep) (sn dn : String),
      findUndefinedDep names steps = some (sn, dn) →
      ∃ s ∈ steps, s.name = sn ∧ dn ∈ s.depends_on ∧ dn ∉ names := by
  intro steps
  induction steps with
  | nil => intro sn dn h ; simp [findUndefinedDep] at h
  | cons s rest ih =>
    intro sn dn h
    unfold findUndefinedDep at h
    cases hfind : s.depends_on.find? (fun d => d ∉ names) with
    | some d =>
      rw [hfind] at h
      injection h with h'
      injection h' with h1 h2
      subst h1 h2
      have hd := List.find?_some hfind
      have hmem := List.mem_of_find?_eq_some hfind
      simp at hd
      exact ⟨s, by simp, rfl, hmem, hd⟩
    | none =>
      rw [hfind] at h
      obtain ⟨s', hs', hrest⟩ := ih sn dn h
      exact ⟨s', by simp [hs'], hrest⟩

theorem dagEdges_sources_mem (steps : List WorkflowStep)
    (h : ∀ s ∈ steps, ∀ d ∈ s.depends_on, d ∈ stepNames steps) :
    ∀ e ∈ dagEdges steps, e.1 ∈ stepNames steps := by
  intro e he
  rw [dagEdges, List.mem_flatMap] at he
  obtain ⟨s, hs, hd⟩ := he
  rcases List.mem_map.mp hd with ⟨d, hdm, rfl⟩
  exact h s hs d hdm

/-- C1: DAG validation succeeds for every step list in which every declared
dependency names some step and the induced graph is cycle-free; a step list
containing an undefined dependency fails with the undefined-dependency
WorkflowError naming the offending step and the missing name; a step list
whose dependencies are all defined but whose graph has a cycle (a non-empty
walk from a vertex to itself, self-loops included) fails with the cycle
WorkflowError. -/
theorem C1_validate_dag (steps : List WorkflowStep) :
    ((∀ s ∈ steps, ∀ d ∈ s.depends_on, d ∈ stepNames steps) →
        ¬ HasCycle (dagEdges steps) → validate_dag steps = .ok ()) ∧
    ((∃ s ∈ steps, ∃ d ∈ s.depends_on, d ∉ stepNames steps) →
        ∃ sn dn, (∃ s ∈ steps, s.name = sn ∧ dn ∈ s.depends_on ∧ dn ∉ stepNames steps) ∧
          validate_dag steps = .error (.workflowError
            ("Step \x27" ++ sn ++ "\x27 has an undefined dependency: \x27" ++ dn ++ "\x27"))) ∧
    ((∀ s ∈ steps, ∀ d ∈ s.depends_on, d ∈ stepNames steps) →
        HasCycle (dagEdges steps) → validate_dag steps = .error (.workflowError
          "Workflow contains a circular dependency (cycle) in its steps.")) := by
  refine ⟨?_, ?_, ?_⟩
  · intro hdef hnc
    have hnone : findUndefinedDep (stepNames steps) steps = none :=
      (findUndefinedDep_eq_none_iff _ _).mpr hdef
    have hdag : is_directed_acyclic_graph (stepNames steps) (dagEdges steps) = true := by
      cases hd : is_directed_acyclic_graph (stepNames steps) (dagEdges steps) with
      | true => rfl
      | false => exact absurd (hasCycle_of_isDag_false _ _ hd) hnc
    simp [validate_dag, hnone, hdag]
  · intro hundef
    have hne : findUndefinedDep (stepNames steps) steps ≠ none := by
      rw [Ne, findUndefinedDep_eq_none_iff]
      intro hall
      obtain ⟨s, hs, d, hd, hnot⟩ := hundef
      exact hnot (hall s hs d hd)
    cases hfind : findUndefinedDep (stepNames steps) steps with
    | none => exact absurd hfind hne
    | some p =>
      obtain ⟨sn, dn⟩ := p
      refine ⟨sn, dn, findUndefinedDep_eq_some _ _ _ _ hfind, ?_⟩
      simp [validate_dag, hfind]
  · intro hdef hc
    have hnone : findUndefinedDep (stepNames steps) steps = none :=
      (findUndefinedDep_eq_none_iff _ _).mpr hdef
    have hdag : is_directed_acyclic_graph (stepNames steps) (dagEdges steps) = false :=
      isDag_false_of_hasCycle _ _ hc (dagEdges_sources_mem steps hdef)
    simp [validate_dag, hnone, hdag]

theorem C1_validate_dag_witness :
    validate_dag [.sql "a" [] "a.sql", .sql "b" ["a"] "b.sql"] = .ok () ∧
    (∃ sn dn,
      (∃ s ∈ [WorkflowStep.sql "b" ["a"] "b.sql"], s.name = sn ∧ dn ∈ s.depends_on ∧
        dn ∉ stepNames [WorkflowStep.sql "b" ["a"] "b.sql"]) ∧
      validate_dag [.sql "b" ["a"] "b.sql"] = .error (.workflowError
        ("Step \x27" ++ sn ++ "\x27 has an undefined dependency: \x27" ++ dn ++ "\x27"))) ∧
    validate_dag [.sql "a" ["a"] "a.sql"] = .error (.workflowError
      "Workflow contains a circular dependency (cycle) in its steps.") :=
  ⟨(C1_validate_dag [.sql "a" [] "a.sql", .sql "b" ["a"] "b.sql"]).1 (by decide)
      (no_cycle_of_check _ (by decide)),
   (C1_validate_dag [.sql "b" ["a"] "b.sql"]).2.1 (by decide),
   (C1_validate_dag [.sql "a" ["a"] "a.sql"]).2.2 (by decide)
      ⟨"a", [("a", "a")], by simp, by decide, rfl, rfl⟩⟩

/-! Supporting lemmas about the statement splitter. -/

theorem dropWhile_eq_self_of_head (p : Char → Bool) (l : List Char)
    (h : ∀ a, l.head? = some a → p a = false) : l.dropWhile p = l := by
  cases l with
  | nil => rfl
  | cons c cs =>
    have := h c rfl
    simp [List.dropWhile, this]

theorem stripChars_boundary (cs : List Char) :
    (∀ a, (stripChars cs).head? = some a → isPySpace a = false) ∧
    (∀ a, (stripChars cs).getLast? = some a → isPySpace a = false) := by
  constructor
  · intro a ha
    unfold stripChars at ha
    rw [List.head?_reverse] at ha
    have hbne : (cs.dropWhile isPySpace).reverse.dropWhile isPySpace ≠ [] := by
      intro hnil
      rw [hnil] at ha
      cases ha
    have hlast : ((cs.dropWhile isPySpace).reverse).getLast?
        = ((cs.dropWhile isPySpace).reverse.dropWhile isPySpace).getLast? := by
      conv_lhs =>
        rw [← List.takeWhile_append_dropWhile isPySpace (cs.dropWhile isPySpace).reverse]
      exact List.getLast?_append_of_ne_nil _ hbne
    rw [← hlast, List.getLast?_reverse] at ha
    have hd := List.head?_dropWhile_not isPySpace cs
    rw [ha] at hd
    exact hd
  · intro a ha
    unfold stripChars at ha
    rw [List.getLast?_reverse] at ha
    have hd := List.head?_dropWhile_not isPySpace (cs.dropWhile isPySpace).reverse
    rw [ha] at hd
    exact hd

theorem stripChars_eq_self (y : List Char)
    (hh : ∀ a, y.head? = some a → isPySpace a = false)
    (hl : ∀ a, y.getLast? = some a → isPySpace a = false) : stripChars y = y := by
  have h1 : y.dropWhile isPySpace = y := dropWhile_eq_self_of_head _ _ hh
  have h2 : y.reverse.dropWhile isPySpace = y.reverse := by
    apply dropWhile_eq_self_of_head
    intro a ha
    rw [List.head?_reverse] at ha
    exact hl a ha
  unfold stripChars
  rw [h1, h2, List.reverse_reverse]

theorem stripChars_idem (cs : List Char) : stripChars (stripChars cs) = stripChars cs :=
  stripChars_eq_self _ (stripChars_boundary cs).1 (stripChars_boundary cs).2

theorem stripChars_eq_nil (cs : List Char) (h : ∀ c ∈ cs, isPySpace c = true) :
    stripChars cs = [] := by
  have h1 : cs.dropWhile isPySpace = [] := by
    rw [List.dropWhile_eq_nil_iff]
    intro x hx
    exact h x hx
  unfold stripChars
  rw [h1]
  rfl

theorem cleanStatement_stripped (stmt : String) :
    pyStrip (cleanStatement stmt) = cleanStatement stmt := by
  unfold cleanStatement pyStrip
  simp only [stripChars_idem]

theorem cleanStatement_of_all_space (stmt : String) (h : ∀ c ∈ stmt.data, isPySpace c = true) :
    cleanStatement stmt = "" := by
  unfold cleanStatement
  rw [stripChars_eq_nil stmt.data h]
  rfl

theorem splitStmtsAux_chars (c : Char) :
    ∀ (cs : List Char) (st : QState) (acc : List Char) (f : List Char),
      f ∈ splitStmtsAux st acc cs → c ∈ f → c ∈ acc ∨ c ∈ cs := by
  intro cs
  induction cs with
  | nil =>
    intro st acc f hf hc
    unfold splitStmtsAux at hf
    split_ifs at hf with hacc
    · cases hf
    · rcases List.mem_singleton.mp hf with rfl
      exact Or.inl (List.mem_reverse.mp hc)
  | cons c0 cs ih =>
    intro st acc f hf hc
    cases st with
    | normal =>
      simp only [splitStmtsAux] at hf
      split_ifs at hf with hsemi
      · rcases List.mem_cons.mp hf with rfl | hrest
        · rcases List.mem_append.mp hc with hca | hcs
          · exact Or.inl (List.mem_reverse.mp hca)
          · rcases List.mem_singleton.mp hcs with rfl
            rw [← hsemi]
            simp
        · rcases ih .normal [] f hrest hc with hnil | hcs
          · cases hnil
          · simp [hcs]
      · rcases ih (enterQuote c0) (c0 :: acc) f hf hc with hca | hcs
        · rcases List.mem_cons.mp hca with rfl | hacc
          · simp
          · exact Or.inl hacc
        · simp [hcs]
    | singleQ =>
      simp only [splitStmtsAux] at hf
      rcases ih _ (c0 :: acc) f hf hc with hca | hcs
      · rcases List.mem_cons.mp hca with rfl | hacc
        · simp
        · exact Or.inl hacc
      · simp [hcs]
    | doubleQ =>
      simp only [splitStmtsAux] at hf
      rcases ih _ (c0 :: acc) f hf hc with hca | hcs
      · rcases List.mem_cons.mp hca with rfl | hacc
        · simp
        · exact Or.inl hacc
      · simp [hcs]
    | backtick =>
      simp only [splitStmtsAux] at hf
      rcases ih _ (c0 :: acc) f hf hc with hca | hcs
      · rcases List.mem_cons.mp hca with rfl | hacc
        · simp
        · exact Or.inl hacc
      · simp [hcs]

/-- Collaborator instances with one empty SQL file, used to evaluate the SQL
branch at concrete inputs. -/
def sqlDemoCollaborators : Collaborators where
  fs := fun p => if p = "./empty.sql" then some [] else none
  parseDML := fun _ => .error "invalid"
  generate_transform_sql := fun _ _ => "SELECT 1"
  fetch_specification := fun v => ⟨v⟩
  generate_ddl := fun _ _ _ => []

/-- C8: the statement splitter never returns an empty or whitespace-only
statement (every returned statement is non-empty and equal to its own strip);
a script whose comment-stripped text is whitespace-only — in particular an
empty or comment-only script — yields the empty sequence; and an sql step
whose file renders to the empty string compiles without error to a
CompiledSQLStep with an empty statement list. -/
theorem C8_split_sql_script :
    (∀ script stmt : String, stmt ∈ split_sql_script script →
        stmt ≠ "" ∧ pyStrip stmt = stmt) ∧
    (∀ script : String, (∀ c ∈ (stripComments script).data, isPySpace c = true) →
        split_sql_script script = []) ∧
    (∀ (C : Collaborators) (ctx : Context) (eid wf bp nm file : String)
        (deps : List String) (tmpl : Template),
        C.fs (pathJoin bp file) = some tmpl →
        render_jinja_template tmpl ctx = .ok "" →
        compileStep C ctx eid wf bp (.sql nm deps file) = ([], .ok (.sql nm deps []))) := by
  refine ⟨?_, ?_, ?_⟩
  · intro script stmt h
    unfold split_sql_script at h
    rw [List.mem_filter] at h
    obtain ⟨hmap, hne⟩ := h
    constructor
    · simpa using hne
    · rcases List.mem_map.mp hmap with ⟨f, _, rfl⟩
      exact cleanStatement_stripped f
  · intro script h
    unfold split_sql_script
    rw [List.filter_eq_nil_iff]
    intro stmt hmem
    rcases List.mem_map.mp hmem with ⟨f, hf, rfl⟩
    unfold splitStmts at hf
    rcases List.mem_map.mp hf with ⟨g, hg, rfl⟩
    have hall : ∀ c ∈ (String.mk g).data, isPySpace c = true := by
      intro c hcg
      rcases splitStmtsAux_chars c (stripComments script).data .normal [] g hg hcg with
        hnil | hcs
      · cases hnil
      · exact h c hcs
    rw [cleanStatement_of_all_space _ hall]
    simp
  · intro C ctx eid wf bp nm file deps tmpl hfs hren
    simp [compileStep, hfs, hren]
    rfl

theorem C8_split_sql_script_witness :
    ("SELECT 1" ≠ "" ∧ pyStrip "SELECT 1" = "SELECT 1") ∧
    split_sql_script "-- a comment" = [] ∧
    compileStep sqlDemoCollaborators (build_context [("source", "raw")]) "E1" "wf" "."
        (.sql "s1" [] "empty.sql") = ([], .ok (.sql "s1" [] [])) :=
  ⟨C8_split_sql_script.1 "SELECT 1; SELECT 2" "SELECT 1" (by decide),
   C8_split_sql_script.2.1 "-- a comment" (by decide),
   C8_split_sql_script.2.2 sqlDemoCollaborators (build_context [("source", "raw")])
     "E1" "wf" "." "s1" "empty.sql" [] [] (by rfl) (by rfl)⟩

end OmopCloudEtl
